import Mathlib

/-!
# Verification of the clewdr credential-pool actor

A shallow embedding of `src/services/cookie_actor.rs` (the `CookieActor`) and of
the admin handler `api_post_cookie` from `src/api/misc.rs`.

Modelling conventions:
* `VecDeque<CookieStatus>` becomes `List CookieStatus` (front of the deque is
  the head of the list).
* `HashSet<CookieStatus>` (hashing by token) becomes a `List CookieStatus`
  where `insert` refuses to add an element whose token is already present,
  exactly mirroring `HashSet::insert` (which keeps the old element and
  returns `false` on a duplicate).
* the `moka` affinity cache becomes an association list `List (Nat × CookieStatus)`;
  capacity and idle-expiry are not modelled (claims about the cache are
  conditioned on no eviction having occurred).
* wall-clock time (`Utc::now()`) is passed explicitly as an `Int` parameter.
* the global `CLEWDR_CONFIG` snapshot fields touched by the actor
  (`cookie_array`, `wasted_cookie`) are carried inside the state record;
  `save` updates them just as `CookieActor::save` does.  The asynchronous
  file write is elided.
-/

/-- Modelled from the spec: `config::UsageBreakdown` is not under `src/`.
The spec describes each window's usage as "a utilization counter
(integer 0-100)"; we model the breakdown as that single counter, with
`Default` giving the zeroed counter. -/
structure UsageBreakdown where
  utilization : Nat
  deriving DecidableEq, Repr

def UsageBreakdown.default : UsageBreakdown := ⟨0⟩

instance : Inhabited UsageBreakdown := ⟨UsageBreakdown.default⟩

/-- Modelled from the spec: `config::CookieStatus` is not under `src/`.
Fields are those the actor code reads or writes: the `cookie` token
(primary key), the cool-down timestamp `reset_time`, and the four rolling
usage windows with their `resets_at` anchors and `has_reset` flags. -/
structure CookieStatus where
  cookie : String
  reset_time : Option Int
  session_usage : UsageBreakdown
  session_resets_at : Option Int
  session_has_reset : Option Bool
  weekly_usage : UsageBreakdown
  weekly_resets_at : Option Int
  weekly_has_reset : Option Bool
  weekly_sonnet_usage : UsageBreakdown
  weekly_sonnet_resets_at : Option Int
  weekly_sonnet_has_reset : Option Bool
  weekly_opus_usage : UsageBreakdown
  weekly_opus_resets_at : Option Int
  weekly_opus_has_reset : Option Bool
  deriving DecidableEq, Repr

/-- Rust `PartialEq`/`Hash` for `CookieStatus` compare by `token` only
(spec: "Equality and hashing are by `token` only"); `sameTok` is that
equality test, used wherever the Rust code compares cookies with `==`. -/
def sameTok (a b : CookieStatus) : Bool := a.cookie == b.cookie

/-- Outcome reason attached to a returned cookie (`config::Reason`).
Constructors follow §3 of the spec: `NormalPro` keeps the cookie active,
`TooManyRequest`/`Restricted` carry a reset timestamp and move it to
cooling, the rest are permanent-invalid kinds handled by the catch-all
branch of `collect`. -/
inductive Reason where
  | NormalPro
  | TooManyRequest (resetAt : Int)
  | Restricted (resetAt : Int)
  | Free
  | Null
  | Disabled
  deriving DecidableEq, Repr

/-- Modelled from the spec: `config::UselessCookie` is not under `src/`.
A dead-pool entry: the token paired with the reason it was evicted.
Rust equality/hashing is by the `cookie` token only (CookieActor::delete
removes an entry using a placeholder `Reason::Null`, which only works
under token-only equality). -/
structure UselessCookie where
  cookie : String
  reason : Reason
  deriving DecidableEq, Repr

/-- Modelled from the spec: `CookieStatus::reset` is not under `src/`.
§4.5 cool-down promotion drains every credential "whose `cooling_until ≤ now`"
and clears `cooling_until`; accordingly `reset` clears `reset_time`
exactly when it is due. -/
def CookieStatus.reset (now : Int) (c : CookieStatus) : CookieStatus :=
  if (c.reset_time.map (fun t => decide (t ≤ now))).getD false then
    { c with reset_time := none }
  else c

/-- Modelled from the spec: `CookieStatus::reset_window_usage` is not under
`src/`.  §4.4: "zero the current-window usage counters". -/
def CookieStatus.reset_window_usage (c : CookieStatus) : CookieStatus :=
  { c with
    session_usage := UsageBreakdown.default
    weekly_usage := UsageBreakdown.default
    weekly_sonnet_usage := UsageBreakdown.default
    weekly_opus_usage := UsageBreakdown.default }

/-- The error kinds of `ClewdrError` the actor can produce. -/
inductive ClewdrError where
  | NoCookieAvailable
  | UnexpectedNone
  deriving DecidableEq, Repr

/-- `moka` cache lookup (`Cache::get`). -/
def mokaGet (m : List (Nat × CookieStatus)) (h : Nat) : Option CookieStatus :=
  (m.find? (fun p => p.1 == h)).map (·.2)

/-- `moka` cache insertion (`Cache::insert` replaces an existing entry). -/
def mokaInsert (m : List (Nat × CookieStatus)) (h : Nat) (c : CookieStatus) :
    List (Nat × CookieStatus) :=
  (h, c) :: m.filter (fun p => p.1 != h)

/-- `HashSet<CookieStatus>::insert`: token-keyed; on a duplicate the set is
unchanged (the OLD element is retained) and `false` is returned. -/
def insertTok (l : List CookieStatus) (c : CookieStatus) : Bool × List CookieStatus :=
  if l.any (fun x => sameTok x c) then (false, l) else (true, l ++ [c])

/-- `HashSet<UselessCookie>::insert`, token-keyed like `insertTok`. -/
def insertUseless (l : List UselessCookie) (u : UselessCookie) : Bool × List UselessCookie :=
  if l.any (fun x => x.cookie == u.cookie) then (false, l) else (true, l ++ [u])

/-- `CookieActorState` (the actor's collections and affinity cache) bundled
with the two `CLEWDR_CONFIG` fields the actor reads and writes. -/
structure PoolState where
  valid : List CookieStatus
  exhausted : List CookieStatus
  invalid : List UselessCookie
  moka : List (Nat × CookieStatus)
  cookie_array : List CookieStatus
  wasted_cookie : List UselessCookie
  deriving DecidableEq, Repr

/-- Snapshot returned by `GetStatus` (`CookieStatusInfo`). -/
structure CookieStatusInfo where
  valid : List CookieStatus
  exhausted : List CookieStatus
  invalid : List UselessCookie
  deriving DecidableEq, Repr

namespace CookieActor

/-- `CookieActor::save`: write `valid ++ exhausted` into `cookie_array` and
`invalid` into `wasted_cookie` (the spawned file write is elided). -/
def save (s : PoolState) : PoolState :=
  { s with
    cookie_array := s.valid ++ s.exhausted
    wasted_cookie := s.invalid }

/-- `CookieActor::reset`: retain in `exhausted` the cookies whose
`CookieStatus::reset` keeps a `reset_time`; the drained ones (reset to
`none`) are pushed to the back of `valid` in iteration order. -/
def reset (now : Int) (s : PoolState) : PoolState :=
  let promoted := s.exhausted.filterMap (fun c =>
    let rc := CookieStatus.reset now c
    if rc.reset_time.isNone then some rc else none)
  let remaining := s.exhausted.filter (fun c =>
    (CookieStatus.reset now c).reset_time.isSome)
  { s with exhausted := remaining, valid := s.valid ++ promoted }

/-- The inner helper `reset_if_due` of `refresh_usage_windows`: returns
(changed, new `resets_at`, new usage). -/
def reset_if_due (hasReset : Option Bool) (resetsAt : Option Int)
    (usage : UsageBreakdown) (windowSecs now : Int) :
    Bool × Option Int × UsageBreakdown :=
  if hasReset == some true && (resetsAt.map (fun ts => decide (now ≥ ts))).getD false then
    (true, some (now + windowSecs), UsageBreakdown.default)
  else
    (false, resetsAt, usage)

def SESSION_WINDOW_SECS : Int := 5 * 60 * 60

def WEEKLY_WINDOW_SECS : Int := 7 * 24 * 60 * 60

/-- The `apply_resets` closure of `refresh_usage_windows`: run
`reset_if_due` on each of the four windows of one cookie. -/
def applyResets (now : Int) (c : CookieStatus) : Bool × CookieStatus :=
  let p1 := reset_if_due c.session_has_reset c.session_resets_at c.session_usage
    SESSION_WINDOW_SECS now
  let p2 := reset_if_due c.weekly_has_reset c.weekly_resets_at c.weekly_usage
    WEEKLY_WINDOW_SECS now
  let p3 := reset_if_due c.weekly_sonnet_has_reset c.weekly_sonnet_resets_at
    c.weekly_sonnet_usage WEEKLY_WINDOW_SECS now
  let p4 := reset_if_due c.weekly_opus_has_reset c.weekly_opus_resets_at
    c.weekly_opus_usage WEEKLY_WINDOW_SECS now
  (p1.1 || p2.1 || p3.1 || p4.1,
    { c with
      session_resets_at := p1.2.1
      session_usage := p1.2.2
      weekly_resets_at := p2.2.1
      weekly_usage := p2.2.2
      weekly_sonnet_resets_at := p3.2.1
      weekly_sonnet_usage := p3.2.2
      weekly_opus_resets_at := p4.2.1
      weekly_opus_usage := p4.2.2 })

/-- `CookieActor::refresh_usage_windows`: apply the window resets to every
cookie of `valid` and `exhausted` (the `drain`/re-insert of the `HashSet`
preserves tokens, hence is a plain `map` here); return whether anything
changed. -/
def refresh_usage_windows (now : Int) (s : PoolState) : Bool × PoolState :=
  let validPairs := s.valid.map (applyResets now)
  let exPairs := s.exhausted.map (applyResets now)
  (validPairs.any (·.1) || exPairs.any (·.1),
    { s with
      valid := validPairs.map (·.2)
      exhausted := exPairs.map (·.2) })

/-- The round-robin tail of `dispatch`: pop the front of `valid`, push it to
the back, install the affinity entry when a fingerprint was supplied. -/
def dispatchRR (s : PoolState) (hash : Option Nat) :
    Except ClewdrError CookieStatus × PoolState :=
  match s.valid with
  | [] => (Except.error ClewdrError.NoCookieAvailable, s)
  | c :: rest =>
    let s1 := { s with valid := rest ++ [c] }
    let s2 := match hash with
      | some h => { s1 with moka := mokaInsert s1.moka h c }
      | none => s1
    (Except.ok c, s2)

/-- The body of `CookieActor::dispatch` after the initial `Self::reset(state)`
call: try the affinity cache (hit requires the cached cookie's token to
still be in `valid`; a hit refreshes the cache slot), else fall through to
round-robin. -/
def dispatchCore (s : PoolState) (hash : Option Nat) :
    Except ClewdrError CookieStatus × PoolState :=
  match hash with
  | some h =>
    match (mokaGet s.moka h).bind (fun cached =>
        s.valid.find? (fun c => sameTok c cached)) with
    | some c => (Except.ok c, { s with moka := mokaInsert s.moka h c })
    | none => dispatchRR s (some h)
  | none => dispatchRR s none

/-- `CookieActor::dispatch`: run cool-down promotion, then select. -/
def dispatch (now : Int) (hash : Option Nat) (s : PoolState) :
    Except ClewdrError CookieStatus × PoolState :=
  dispatchCore (reset now s) hash

/-- Replace the first token-match in `valid` (the
`iter_mut().find(|c| **c == cookie)` + in-place overwrite of `collect`'s
`None` branch). -/
def replaceFirst (l : List CookieStatus) (c : CookieStatus) : List CookieStatus :=
  match l with
  | [] => []
  | x :: xs => if sameTok x c then c :: xs else x :: replaceFirst xs c

/-- The shared permanent-invalid tail of `collect` (`Free` branch and the
`_` catch-all are textually identical in the source). -/
def collectInvalid (s : PoolState) (cookie : CookieStatus) (r : Reason) : PoolState :=
  let s1 := { s with valid := s.valid.filter (fun c => !sameTok c cookie) }
  let p := insertUseless s1.invalid (UselessCookie.mk cookie.cookie r)
  if p.1 then save { s1 with invalid := p.2 } else s1

/-- `CookieActor::collect`: classify a returned cookie. -/
def collect (s : PoolState) (cookie : CookieStatus) (reason : Option Reason) :
    PoolState :=
  match reason with
  | none =>
    if s.valid.any (fun c => sameTok c cookie) then
      save { s with valid := replaceFirst s.valid cookie }
    else s
  | some Reason.NormalPro => s
  | some (Reason.TooManyRequest i) =>
    let s1 := { s with valid := s.valid.filter (fun c => !sameTok c cookie) }
    let c1 := CookieStatus.reset_window_usage { cookie with reset_time := some i }
    let p := insertTok s1.exhausted c1
    if p.1 then save { s1 with exhausted := p.2 } else s1
  | some (Reason.Restricted i) =>
    let s1 := { s with valid := s.valid.filter (fun c => !sameTok c cookie) }
    let c1 := CookieStatus.reset_window_usage { cookie with reset_time := some i }
    let p := insertTok s1.exhausted c1
    if p.1 then save { s1 with exhausted := p.2 } else s1
  | some Reason.Free => collectInvalid s cookie Reason.Free
  | some r => collectInvalid s cookie r

/-- `CookieActor::accept`: reject when the token is already in the config's
`cookie_array` or `wasted_cookie`, else push to the back of `valid` and save. -/
def accept (s : PoolState) (cookie : CookieStatus) : PoolState :=
  if s.cookie_array.any (fun c => sameTok c cookie)
      || s.wasted_cookie.any (fun u => u.cookie == cookie.cookie) then
    s
  else
    save { s with valid := s.valid ++ [cookie] }

/-- `CookieActor::report`: a defensive clone of the three collections. -/
def report (s : PoolState) : CookieStatusInfo :=
  { valid := s.valid, exhausted := s.exhausted, invalid := s.invalid }

/-- `CookieActor::delete`: remove the token from every collection; `Ok` iff
it was found somewhere. -/
def delete (s : PoolState) (cookie : CookieStatus) :
    Except ClewdrError Unit × PoolState :=
  let foundV := s.valid.any (fun c => sameTok c cookie)
  let foundE := s.exhausted.any (fun c => sameTok c cookie)
  let foundI := s.invalid.any (fun u => u.cookie == cookie.cookie)
  let s1 := { s with
    valid := s.valid.filter (fun c => !sameTok c cookie)
    exhausted := s.exhausted.filter (fun c => !sameTok c cookie)
    invalid := s.invalid.filter (fun u => u.cookie != cookie.cookie) }
  if foundV || foundE || foundI then (Except.ok (), save s1)
  else (Except.error ClewdrError.UnexpectedNone, s1)

end CookieActor

/-- The actor mailbox messages (`CookieActorMessage`); reply ports are
elided — replies are recovered by running the corresponding pure function. -/
inductive CookieActorMessage where
  | Return (c : CookieStatus) (r : Option Reason)
  | Submit (c : CookieStatus)
  | CheckReset
  | Request (hash : Option Nat)
  | GetStatus
  | Delete (c : CookieStatus)
  deriving DecidableEq, Repr

/-- The state transition of `CookieActor::handle` for one message, at wall
clock `now`. -/
def handleMsg (now : Int) (msg : CookieActorMessage) (s : PoolState) : PoolState :=
  match msg with
  | CookieActorMessage.Return c r => CookieActor.collect s c r
  | CookieActorMessage.Submit c => CookieActor.accept s c
  | CookieActorMessage.CheckReset =>
    let p := CookieActor.refresh_usage_windows now s
    let s1 := if p.1 then CookieActor.save p.2 else p.2
    CookieActor.reset now s1
  | CookieActorMessage.Request h => (CookieActor.dispatch now h s).2
  | CookieActorMessage.GetStatus =>
    let p := CookieActor.refresh_usage_windows now s
    if p.1 then CookieActor.save p.2 else p.2
  | CookieActorMessage.Delete c => (CookieActor.delete s c).2

/-- Run a sequence of timestamped messages through the actor. -/
def runMsgs (msgs : List (Int × CookieActorMessage)) (s : PoolState) : PoolState :=
  msgs.foldl (fun s m => handleMsg m.1 m.2 s) s

/-- `CookieActor::pre_start`: rehydrate from the config — cookies with a
`reset_time` go to `exhausted`, the rest to `valid`; `wasted_cookie` to
`invalid`; empty affinity cache. -/
def initState (arr : List CookieStatus) (wasted : List UselessCookie) : PoolState :=
  { valid := arr.filter (fun c => c.reset_time.isNone)
    exhausted := arr.filter (fun c => c.reset_time.isSome)
    invalid := wasted
    moka := []
    cookie_array := arr
    wasted_cookie := wasted }

/-- Admin-surface errors of `ApiError` relevant to `api_post_cookie`. -/
inductive ApiError where
  | unauthorized
  | serviceUnavailable
  deriving DecidableEq, Repr

/-- `api_post_cookie` (src/api/misc.rs): check admin auth, check the
persistence backend, then clear `reset_time` on the payload and forward it
to the actor's `Submit` (here: run `accept` directly). -/
def api_post_cookie (adminOk dbOk : Bool) (s : PoolState) (c : CookieStatus) :
    Except ApiError Unit × PoolState :=
  if !adminOk then (Except.error ApiError.unauthorized, s)
  else if !dbOk then (Except.error ApiError.serviceUnavailable, s)
  else
    let c1 := { c with reset_time := none }
    (Except.ok (), CookieActor.accept s c1)

/-- Token list of a cookie collection. -/
def toks (l : List CookieStatus) : List String := l.map (·.cookie)

/-- Number of copies of a token in a collection. -/
def countTok (l : List CookieStatus) (t : String) : Nat :=
  (l.filter (fun c => c.cookie == t)).length

/-- A fully-blank cookie with the given token: every optional field `none`,
counters zero.  Used to build concrete test states. -/
def mkCookie (t : String) : CookieStatus :=
  { cookie := t
    reset_time := none
    session_usage := UsageBreakdown.default
    session_resets_at := none
    session_has_reset := none
    weekly_usage := UsageBreakdown.default
    weekly_resets_at := none
    weekly_has_reset := none
    weekly_sonnet_usage := UsageBreakdown.default
    weekly_sonnet_resets_at := none
    weekly_sonnet_has_reset := none
    weekly_opus_usage := UsageBreakdown.default
    weekly_opus_resets_at := none
    weekly_opus_has_reset := none }

instance : Inhabited CookieStatus := ⟨mkCookie ""⟩

/-! ## Basic lemmas -/

theorem sameTok_iff (a b : CookieStatus) : sameTok a b = true ↔ a.cookie = b.cookie := by
  simp [sameTok]

theorem reset_cookie_eq (now : Int) (c : CookieStatus) :
    (CookieStatus.reset now c).cookie = c.cookie := by
  unfold CookieStatus.reset
  split <;> rfl

theorem reset_window_usage_cookie_eq (c : CookieStatus) :
    (CookieStatus.reset_window_usage c).cookie = c.cookie := rfl

theorem applyResets_cookie_eq (now : Int) (c : CookieStatus) :
    ((CookieActor.applyResets now c).2).cookie = c.cookie := rfl

theorem save_valid (s : PoolState) : (CookieActor.save s).valid = s.valid := rfl

theorem save_exhausted (s : PoolState) : (CookieActor.save s).exhausted = s.exhausted := rfl

theorem save_invalid (s : PoolState) : (CookieActor.save s).invalid = s.invalid := rfl

/-! ## Concrete cookies for scenario states -/

def cookieA : CookieStatus := mkCookie "a"

def cookieB : CookieStatus := mkCookie "b"

def cookieC : CookieStatus := mkCookie "c"

/-! ## C7: Acquire fails iff active is empty after promotion -/

theorem dispatchRR_error_iff (s : PoolState) (h : Option Nat) :
    ((CookieActor.dispatchRR s h).1 = Except.error ClewdrError.NoCookieAvailable
      ↔ s.valid = [])
    ∧ ((∃ c, (CookieActor.dispatchRR s h).1 = Except.ok c) ↔ s.valid ≠ []) := by
  cases hv : s.valid with
  | nil => simp [CookieActor.dispatchRR, hv]
  | cons c rest => simp [CookieActor.dispatchRR, hv]

/-- C7: `dispatch` returns `NoCookieAvailable` exactly when the `valid`
queue is empty after cool-down promotion (`reset`) has run; otherwise it
returns some credential. -/
theorem C7_no_cookie_iff_empty (now : Int) (h : Option Nat) (s : PoolState) :
    ((CookieActor.dispatch now h s).1 = Except.error ClewdrError.NoCookieAvailable
      ↔ (CookieActor.reset now s).valid = [])
    ∧ ((∃ c, (CookieActor.dispatch now h s).1 = Except.ok c)
      ↔ (CookieActor.reset now s).valid ≠ []) := by
  unfold CookieActor.dispatch
  cases h with
  | none => exact dispatchRR_error_iff (CookieActor.reset now s) none
  | some hh =>
    cases hm : (mokaGet (CookieActor.reset now s).moka hh).bind (fun cached =>
        (CookieActor.reset now s).valid.find? (fun c => sameTok c cached)) with
    | none =>
      simpa [CookieActor.dispatchCore, hm]
        using dispatchRR_error_iff (CookieActor.reset now s) (some hh)
    | some c =>
      have hc : c ∈ (CookieActor.reset now s).valid := by
        rcases Option.bind_eq_some.mp hm with ⟨cached, _, h2⟩
        exact List.mem_of_find?_eq_some h2
      have hne : (CookieActor.reset now s).valid ≠ [] := List.ne_nil_of_mem hc
      simp [CookieActor.dispatchCore, hm, hne]

/-! ## C10: admin submit clears the cooling timestamp -/

/-- C10: `api_post_cookie` unconditionally clears `reset_time` before
forwarding, so an accepted submission appends the credential (with
`reset_time = none`) to the back of `valid`; `exhausted` and `invalid`
are never touched — the new credential can never land in cooling. -/
theorem C10_post_cookie_active_only (s : PoolState) (c : CookieStatus) :
    ((api_post_cookie true true s c).2.exhausted = s.exhausted)
    ∧ ((api_post_cookie true true s c).2.invalid = s.invalid)
    ∧ ((api_post_cookie true true s c).2.valid = s.valid
        ∨ (api_post_cookie true true s c).2.valid
            = s.valid ++ [{ c with reset_time := none }]) := by
  unfold api_post_cookie CookieActor.accept
  by_cases hdup : (s.cookie_array.any (fun x => sameTok x { c with reset_time := none })
      || s.wasted_cookie.any (fun u => u.cookie == ({ c with reset_time := none } : CookieStatus).cookie)) = true
  · simp [hdup]
  · simp [hdup, CookieActor.save]

/-! ## C2: the cross-collection uniqueness invariant fails for `dead` -/

/-- C2 counterexample: from the well-formed one-cookie pool,
`Return(A, rate_limited(5))` followed by `Return(A, free_tier_rejected)`
leaves token "a" in `cooling` AND in `dead` simultaneously: the two
Return messages are ordinary actor messages, yet the resulting reachable
state has the token in two collections. -/
theorem C2_cx_token_in_cooling_and_dead :
    ((runMsgs
        [(0, CookieActorMessage.Return cookieA (some (Reason.TooManyRequest 5))),
         (0, CookieActorMessage.Return cookieA (some Reason.Free))]
        (initState [cookieA] [])).exhausted.any (fun c => c.cookie == "a") = true)
    ∧ ((runMsgs
        [(0, CookieActorMessage.Return cookieA (some (Reason.TooManyRequest 5))),
         (0, CookieActorMessage.Return cookieA (some Reason.Free))]
        (initState [cookieA] [])).invalid.any (fun u => u.cookie == "a") = true) := by
  decide

/-! ## C4: the second rate-limited timestamp does NOT overwrite the first -/

/-- C4 counterexample: `Return(A, rate_limited(1))` then
`Return(A, rate_limited(2))` leaves the single cooling copy of A with
`cooling_until = 1` — the FIRST timestamp — because `HashSet::insert`
keeps the old element on a duplicate; the claim's `cooling_until = t2 = 2`
is false. -/
theorem C4_cx_first_timestamp_wins :
    ((CookieActor.collect
        (CookieActor.collect (initState [cookieA] []) cookieA
          (some (Reason.TooManyRequest 1)))
        cookieA (some (Reason.TooManyRequest 2))).exhausted.map (fun c => c.reset_time)
      = [some 1])
    ∧ (some (1 : Int) ≠ some (2 : Int)) := by
  decide

/-! ## C5: window expiry re-anchors at `now`, not at the old `resets_at` -/

/-- C5 counterexample: a credential with `session_has_reset = true` and
`session_resets_at = 99` refreshed at `now = 100` ends with
`session_resets_at = 100 + 5h = 18100`, not the claim's
`99 + 5h = 18099`. -/
theorem C5_cx_anchor_is_now :
    ((CookieActor.refresh_usage_windows 100
        (initState [{ mkCookie "a" with
          session_has_reset := some true,
          session_resets_at := some 99 }] [])).2.valid.map
        (fun c => c.session_resets_at) = [some 18100])
    ∧ (some (18100 : Int) ≠ some (99 + 18000 : Int)) := by
  decide

/-! ## C6: GetStatus runs window expiry but NOT cool-down promotion -/

/-- C6 counterexample: with one credential cooling until 5 and a `GetStatus`
at `now = 10` (past due), the snapshot still shows the credential in
`exhausted` and `valid` stays empty — the claimed cool-down promotion does
not run on Status requests. -/
theorem C6_cx_status_does_not_promote :
    ((CookieActor.report (handleMsg 10 CookieActorMessage.GetStatus
        (initState [{ mkCookie "a" with reset_time := some 5 }] []))).valid = [])
    ∧ ((CookieActor.report (handleMsg 10 CookieActorMessage.GetStatus
        (initState [{ mkCookie "a" with reset_time := some 5 }] []))).exhausted
        ≠ []) := by
  decide

theorem ite_save_valid (b : Bool) (s : PoolState) :
    (if b = true then CookieActor.save s else s).valid = s.valid := by
  split <;> rfl

theorem ite_save_exhausted (b : Bool) (s : PoolState) :
    (if b = true then CookieActor.save s else s).exhausted = s.exhausted := by
  split <;> rfl

/-- C6 amended: a `GetStatus` request performs rolling-window expiry only —
every credential of `valid` and `exhausted` has `apply_resets` applied to
it, and the membership (token lists) of both collections is unchanged; in
particular no cooling credential is promoted to `valid` by a Status
request (promotion runs on Acquire and Tick instead). -/
theorem C6_status_refreshes_windows_only (now : Int) (s : PoolState) :
    ((handleMsg now CookieActorMessage.GetStatus s).valid
      = s.valid.map (fun c => (CookieActor.applyResets now c).2))
    ∧ ((handleMsg now CookieActorMessage.GetStatus s).exhausted
      = s.exhausted.map (fun c => (CookieActor.applyResets now c).2))
    ∧ (toks (handleMsg now CookieActorMessage.GetStatus s).valid = toks s.valid)
    ∧ (toks (handleMsg now CookieActorMessage.GetStatus s).exhausted
      = toks s.exhausted) := by
  have hv : (handleMsg now CookieActorMessage.GetStatus s).valid
      = s.valid.map (fun c => (CookieActor.applyResets now c).2) := by
    show ((if _ = true then CookieActor.save _ else _) : PoolState).valid = _
    rw [ite_save_valid]
    simp [CookieActor.refresh_usage_windows, List.map_map, Function.comp]
  have he : (handleMsg now CookieActorMessage.GetStatus s).exhausted
      = s.exhausted.map (fun c => (CookieActor.applyResets now c).2) := by
    show ((if _ = true then CookieActor.save _ else _) : PoolState).exhausted = _
    rw [ite_save_exhausted]
    simp [CookieActor.refresh_usage_windows, List.map_map, Function.comp]
  refine ⟨hv, he, ?_, ?_⟩
  · rw [hv]
    simp [toks, List.map_map, Function.comp, applyResets_cookie_eq]
  · rw [he]
    simp [toks, List.map_map, Function.comp, applyResets_cookie_eq]

theorem reset_if_due_fires (hr : Option Bool) (ra : Option Int) (u : UsageBreakdown)
    (w now r : Int) (h1 : hr = some true) (h2 : ra = some r) (h3 : r ≤ now) :
    CookieActor.reset_if_due hr ra u w now
      = (true, some (now + w), UsageBreakdown.default) := by
  subst h1 h2
  simp [CookieActor.reset_if_due, h3]

theorem applyResets_session_fires (now r : Int) (c : CookieStatus)
    (h1 : c.session_has_reset = some true) (h2 : c.session_resets_at = some r)
    (h3 : r ≤ now) :
    (CookieActor.applyResets now c).2.session_usage = UsageBreakdown.default
    ∧ (CookieActor.applyResets now c).2.session_resets_at
        = some (now + CookieActor.SESSION_WINDOW_SECS) := by
  have hp := reset_if_due_fires c.session_has_reset c.session_resets_at
    c.session_usage CookieActor.SESSION_WINDOW_SECS now r h1 h2 h3
  constructor
  · show (CookieActor.reset_if_due c.session_has_reset c.session_resets_at
      c.session_usage CookieActor.SESSION_WINDOW_SECS now).2.2 = _
    rw [hp]
  · show (CookieActor.reset_if_due c.session_has_reset c.session_resets_at
      c.session_usage CookieActor.SESSION_WINDOW_SECS now).2.1 = _
    rw [hp]

theorem applyResets_weekly_fires (now r : Int) (c : CookieStatus)
    (h1 : c.weekly_has_reset = some true) (h2 : c.weekly_resets_at = some r)
    (h3 : r ≤ now) :
    (CookieActor.applyResets now c).2.weekly_usage = UsageBreakdown.default
    ∧ (CookieActor.applyResets now c).2.weekly_resets_at
        = some (now + CookieActor.WEEKLY_WINDOW_SECS) := by
  have hp := reset_if_due_fires c.weekly_has_reset c.weekly_resets_at
    c.weekly_usage CookieActor.WEEKLY_WINDOW_SECS now r h1 h2 h3
  constructor
  · show (CookieActor.reset_if_due c.weekly_has_reset c.weekly_resets_at
      c.weekly_usage CookieActor.WEEKLY_WINDOW_SECS now).2.2 = _
    rw [hp]
  · show (CookieActor.reset_if_due c.weekly_has_reset c.weekly_resets_at
      c.weekly_usage CookieActor.WEEKLY_WINDOW_SECS now).2.1 = _
    rw [hp]

theorem applyResets_weekly_sonnet_fires (now r : Int) (c : CookieStatus)
    (h1 : c.weekly_sonnet_has_reset = some true)
    (h2 : c.weekly_sonnet_resets_at = some r) (h3 : r ≤ now) :
    (CookieActor.applyResets now c).2.weekly_sonnet_usage = UsageBreakdown.default
    ∧ (CookieActor.applyResets now c).2.weekly_sonnet_resets_at
        = some (now + CookieActor.WEEKLY_WINDOW_SECS) := by
  have hp := reset_if_due_fires c.weekly_sonnet_has_reset c.weekly_sonnet_resets_at
    c.weekly_sonnet_usage CookieActor.WEEKLY_WINDOW_SECS now r h1 h2 h3
  constructor
  · show (CookieActor.reset_if_due c.weekly_sonnet_has_reset c.weekly_sonnet_resets_at
      c.weekly_sonnet_usage CookieActor.WEEKLY_WINDOW_SECS now).2.2 = _
    rw [hp]
  · show (CookieActor.reset_if_due c.weekly_sonnet_has_reset c.weekly_sonnet_resets_at
      c.weekly_sonnet_usage CookieActor.WEEKLY_WINDOW_SECS now).2.1 = _
    rw [hp]

theorem applyResets_weekly_opus_fires (now r : Int) (c : CookieStatus)
    (h1 : c.weekly_opus_has_reset = some true)
    (h2 : c.weekly_opus_resets_at = some r) (h3 : r ≤ now) :
    (CookieActor.applyResets now c).2.weekly_opus_usage = UsageBreakdown.default
    ∧ (CookieActor.applyResets now c).2.weekly_opus_resets_at
        = some (now + CookieActor.WEEKLY_WINDOW_SECS) := by
  have hp := reset_if_due_fires c.weekly_opus_has_reset c.weekly_opus_resets_at
    c.weekly_opus_usage CookieActor.WEEKLY_WINDOW_SECS now r h1 h2 h3
  constructor
  · show (CookieActor.reset_if_due c.weekly_opus_has_reset c.weekly_opus_resets_at
      c.weekly_opus_usage CookieActor.WEEKLY_WINDOW_SECS now).2.2 = _
    rw [hp]
  · show (CookieActor.reset_if_due c.weekly_opus_has_reset c.weekly_opus_resets_at
      c.weekly_opus_usage CookieActor.WEEKLY_WINDOW_SECS now).2.1 = _
    rw [hp]

/-- C5 amended: on window refresh (run by Tick), every credential of
`valid` and `exhausted` gets `apply_resets`; for any window with
`has_reset = true` and `resets_at ≤ now`, the usage counter is zeroed and
`resets_at` is re-anchored to `now +` the window length (5h session,
7d weekly) — NOT advanced from its previous value. -/
theorem C5_window_reset_anchors_at_now (now : Int) (s : PoolState) (c : CookieStatus)
    (hc : c ∈ s.valid ∨ c ∈ s.exhausted) :
    ((CookieActor.applyResets now c).2
        ∈ (CookieActor.refresh_usage_windows now s).2.valid
      ∨ (CookieActor.applyResets now c).2
        ∈ (CookieActor.refresh_usage_windows now s).2.exhausted)
    ∧ (∀ r, c.session_has_reset = some true → c.session_resets_at = some r → r ≤ now →
        (CookieActor.applyResets now c).2.session_usage = UsageBreakdown.default
        ∧ (CookieActor.applyResets now c).2.session_resets_at
            = some (now + CookieActor.SESSION_WINDOW_SECS))
    ∧ (∀ r, c.weekly_has_reset = some true → c.weekly_resets_at = some r → r ≤ now →
        (CookieActor.applyResets now c).2.weekly_usage = UsageBreakdown.default
        ∧ (CookieActor.applyResets now c).2.weekly_resets_at
            = some (now + CookieActor.WEEKLY_WINDOW_SECS))
    ∧ (∀ r, c.weekly_sonnet_has_reset = some true → c.weekly_sonnet_resets_at = some r →
        r ≤ now →
        (CookieActor.applyResets now c).2.weekly_sonnet_usage = UsageBreakdown.default
        ∧ (CookieActor.applyResets now c).2.weekly_sonnet_resets_at
            = some (now + CookieActor.WEEKLY_WINDOW_SECS))
    ∧ (∀ r, c.weekly_opus_has_reset = some true → c.weekly_opus_resets_at = some r →
        r ≤ now →
        (CookieActor.applyResets now c).2.weekly_opus_usage = UsageBreakdown.default
        ∧ (CookieActor.applyResets now c).2.weekly_opus_resets_at
            = some (now + CookieActor.WEEKLY_WINDOW_SECS)) := by
  refine ⟨?_, ?_, ?_, ?_, ?_⟩
  · cases hc with
    | inl h =>
      left
      simp only [CookieActor.refresh_usage_windows, List.map_map]
      exact List.mem_map_of_mem _ h
    | inr h =>
      right
      simp only [CookieActor.refresh_usage_windows, List.map_map]
      exact List.mem_map_of_mem _ h
  · exact fun r h1 h2 h3 => applyResets_session_fires now r c h1 h2 h3
  · exact fun r h1 h2 h3 => applyResets_weekly_fires now r c h1 h2 h3
  · exact fun r h1 h2 h3 => applyResets_weekly_sonnet_fires now r c h1 h2 h3
  · exact fun r h1 h2 h3 => applyResets_weekly_opus_fires now r c h1 h2 h3

/-! ## C3 / C4: rate-limited Return, applied once and twice -/

theorem filter_not_sameTok_idem (l : List CookieStatus) (c : CookieStatus) :
    (l.filter (fun x => !sameTok x c)).filter (fun x => !sameTok x c)
      = l.filter (fun x => !sameTok x c) := by
  induction l with
  | nil => rfl
  | cons x xs ih =>
    by_cases hx : sameTok x c <;> simp [hx, ih]

theorem not_mem_toks_filter (l : List CookieStatus) (c : CookieStatus) :
    c.cookie ∉ toks (l.filter (fun x => !sameTok x c)) := by
  intro h
  rcases List.mem_map.mp h with ⟨x, hx, hcx⟩
  have hf := (List.mem_filter.mp hx).2
  rw [sameTok] at hf
  simp [hcx] at hf

/-- A rate-limited Return whose token is NOT yet cooling: remove from
`valid`, set `reset_time`, zero the windows, append to `exhausted`, save. -/
theorem collect_rl_fresh (s : PoolState) (c : CookieStatus) (t : Int)
    (hx : c.cookie ∉ toks s.exhausted) :
    CookieActor.collect s c (some (Reason.TooManyRequest t))
      = CookieActor.save
          { s with
            valid := s.valid.filter (fun x => !sameTok x c)
            exhausted := s.exhausted
              ++ [CookieStatus.reset_window_usage { c with reset_time := some t }] } := by
  have hany : s.exhausted.any (fun x =>
      sameTok x (CookieStatus.reset_window_usage { c with reset_time := some t }))
      = false := by
    rw [List.any_eq_false]
    intro x hmem
    intro hcontra
    exact hx (List.mem_map.mpr ⟨x, hmem, (sameTok_iff _ _).mp hcontra⟩)
  simp [CookieActor.collect, insertTok, hany]

/-- A rate-limited Return whose token IS already cooling: the `valid` queue
is filtered, but the `HashSet` insert fails, so the cooling set (and the
old entry's `reset_time`) are left untouched and nothing is saved. -/
theorem collect_rl_dup (s : PoolState) (c : CookieStatus) (t : Int)
    (hdup : c.cookie ∈ toks s.exhausted) :
    CookieActor.collect s c (some (Reason.TooManyRequest t))
      = { s with valid := s.valid.filter (fun x => !sameTok x c) } := by
  rcases List.mem_map.mp hdup with ⟨x, hmem, hcx⟩
  have hany : s.exhausted.any (fun y =>
      sameTok y (CookieStatus.reset_window_usage { c with reset_time := some t }))
      = true := by
    rw [List.any_eq_true]
    exact ⟨x, hmem, (sameTok_iff _ _).mpr hcx⟩
  simp [CookieActor.collect, insertTok, hany]

theorem collect_rl_fresh_exhausted_filter (s : PoolState) (c : CookieStatus) (t : Int)
    (hx : c.cookie ∉ toks s.exhausted) :
    (CookieActor.collect s c (some (Reason.TooManyRequest t))).exhausted.filter
        (fun e => e.cookie == c.cookie)
      = [CookieStatus.reset_window_usage { c with reset_time := some t }] := by
  rw [collect_rl_fresh s c t hx, save_exhausted, List.filter_append]
  have h1 : s.exhausted.filter (fun e => e.cookie == c.cookie) = [] := by
    rw [List.filter_eq_nil_iff]
    intro x hmem hcontra
    exact hx (List.mem_map.mpr ⟨x, hmem, by simpa using hcontra⟩)
  rw [h1]
  simp [CookieStatus.reset_window_usage]

theorem collect_rl_twice_eq (s : PoolState) (c : CookieStatus) (t1 t2 : Int)
    (hx : c.cookie ∉ toks s.exhausted) :
    CookieActor.collect
        (CookieActor.collect s c (some (Reason.TooManyRequest t1))) c
        (some (Reason.TooManyRequest t2))
      = CookieActor.collect s c (some (Reason.TooManyRequest t1)) := by
  have h1 := collect_rl_fresh s c t1 hx
  have hdup : c.cookie
      ∈ toks (CookieActor.collect s c (some (Reason.TooManyRequest t1))).exhausted := by
    rw [h1, save_exhausted]
    exact List.mem_map.mpr ⟨_, List.mem_append_right _ (List.mem_singleton.mpr rfl), rfl⟩
  have hval : (CookieActor.collect s c (some (Reason.TooManyRequest t1))).valid.filter
      (fun x => !sameTok x c)
      = (CookieActor.collect s c (some (Reason.TooManyRequest t1))).valid := by
    rw [h1, save_valid]
    exact filter_not_sameTok_idem s.valid c
  rw [collect_rl_dup _ c t2 hdup]
  rw [hval]

/-- C3: for a credential `c` in `active` whose token is not yet cooling,
`Return(c, rate_limited(t))` removes `c` from `active` and places exactly
one copy in `cooling`, with `reset_time = t` and all four usage windows
zeroed; applying the same Return a second time leaves the state unchanged,
so exactly one copy with `reset_time = t` remains. -/
theorem C3_rate_limited_cool_idempotent (s : PoolState) (c : CookieStatus) (t : Int)
    (_hv : c ∈ s.valid) (hx : c.cookie ∉ toks s.exhausted) :
    (c.cookie ∉ toks (CookieActor.collect s c (some (Reason.TooManyRequest t))).valid)
    ∧ ((CookieActor.collect s c (some (Reason.TooManyRequest t))).exhausted.filter
        (fun e => e.cookie == c.cookie)
        = [CookieStatus.reset_window_usage { c with reset_time := some t }])
    ∧ (CookieActor.collect
        (CookieActor.collect s c (some (Reason.TooManyRequest t))) c
        (some (Reason.TooManyRequest t))
        = CookieActor.collect s c (some (Reason.TooManyRequest t))) := by
  refine ⟨?_, collect_rl_fresh_exhausted_filter s c t hx,
    collect_rl_twice_eq s c t t hx⟩
  rw [collect_rl_fresh s c t hx, save_valid]
  exact not_mem_toks_filter s.valid c

/-- C4 amended: when `Return(c, rate_limited(t1))` is followed by
`Return(c, rate_limited(t2))`, the pool holds exactly one copy of `c` in
`cooling` and its `reset_time` equals the FIRST timestamp `t1`: the second
Return leaves the whole state unchanged, because the token-keyed
`HashSet::insert` retains the existing entry. -/
theorem C4_first_timestamp_retained (s : PoolState) (c : CookieStatus) (t1 t2 : Int)
    (_hv : c ∈ s.valid) (hx : c.cookie ∉ toks s.exhausted) :
    (CookieActor.collect
        (CookieActor.collect s c (some (Reason.TooManyRequest t1))) c
        (some (Reason.TooManyRequest t2))
      = CookieActor.collect s c (some (Reason.TooManyRequest t1)))
    ∧ ((CookieActor.collect
        (CookieActor.collect s c (some (Reason.TooManyRequest t1))) c
        (some (Reason.TooManyRequest t2))).exhausted.filter
        (fun e => e.cookie == c.cookie)
        = [CookieStatus.reset_window_usage { c with reset_time := some t1 }]) := by
  refine ⟨collect_rl_twice_eq s c t1 t2 hx, ?_⟩
  rw [collect_rl_twice_eq s c t1 t2 hx]
  exact collect_rl_fresh_exhausted_filter s c t1 hx

/-! ## C9: Submit rejects duplicate tokens -/

theorem accept_of_dup (s : PoolState) (cookie : CookieStatus)
    (h : (s.cookie_array.any (fun c => sameTok c cookie)
      || s.wasted_cookie.any (fun u => u.cookie == cookie.cookie)) = true) :
    CookieActor.accept s cookie = s := by
  unfold CookieActor.accept
  rw [h]
  simp

theorem accept_of_fresh (s : PoolState) (cookie : CookieStatus)
    (h : (s.cookie_array.any (fun c => sameTok c cookie)
      || s.wasted_cookie.any (fun u => u.cookie == cookie.cookie)) = false) :
    CookieActor.accept s cookie
      = CookieActor.save { s with valid := s.valid ++ [cookie] } := by
  unfold CookieActor.accept
  rw [h]
  simp

/-- C9: submitting a fresh credential `a` appends it to `valid`; submitting
a second credential `a2` with the same token (whatever its other fields)
is rejected and leaves the whole state unchanged, so the pool ends with
exactly one copy of the token, in `valid` only. -/
theorem C9_submit_duplicate_rejected (s : PoolState) (a a2 : CookieStatus)
    (htok : a2.cookie = a.cookie)
    (h1 : a.cookie ∉ toks s.valid)
    (h2 : a.cookie ∉ toks s.exhausted)
    (h3 : ∀ u ∈ s.invalid, u.cookie ≠ a.cookie)
    (h4 : a.cookie ∉ toks s.cookie_array)
    (h5 : ∀ u ∈ s.wasted_cookie, u.cookie ≠ a.cookie) :
    (CookieActor.accept (CookieActor.accept s a) a2 = CookieActor.accept s a)
    ∧ countTok (CookieActor.accept s a).valid a.cookie = 1
    ∧ (a.cookie ∉ toks (CookieActor.accept s a).exhausted)
    ∧ (∀ u ∈ (CookieActor.accept s a).invalid, u.cookie ≠ a.cookie) := by
  have hc1 : s.cookie_array.any (fun c => sameTok c a) = false := by
    rw [List.any_eq_false]
    intro x hx hcon
    exact h4 (List.mem_map.mpr ⟨x, hx, (sameTok_iff _ _).mp hcon⟩)
  have hw1 : s.wasted_cookie.any (fun u => u.cookie == a.cookie) = false := by
    rw [List.any_eq_false]
    intro u hu hcon
    exact h5 u hu (by simpa using hcon)
  have hs1 : CookieActor.accept s a
      = CookieActor.save { s with valid := s.valid ++ [a] } := by
    apply accept_of_fresh
    rw [hc1, hw1]
    rfl
  refine ⟨?_, ?_, ?_, ?_⟩
  · apply accept_of_dup
    rw [Bool.or_eq_true]
    left
    rw [hs1]
    rw [List.any_eq_true]
    refine ⟨a, ?_, ?_⟩
    · exact List.mem_append_left _ (List.mem_append_right _ (List.mem_singleton.mpr rfl))
    · rw [sameTok_iff]
      exact htok.symm
  · rw [hs1, save_valid]
    have hnil : s.valid.filter (fun c => c.cookie == a.cookie) = [] := by
      rw [List.filter_eq_nil_iff]
      intro x hx hcon
      exact h1 (List.mem_map.mpr ⟨x, hx, by simpa using hcon⟩)
    simp [countTok, List.filter_append, hnil]
  · rw [hs1, save_exhausted]
    exact h2
  · rw [hs1, save_invalid]
    exact h3

/-! ## C8: affinity stability -/

theorem find?_filter_ne (m : List (Nat × CookieStatus)) (h f : Nat) (hne : f ≠ h) :
    (m.filter (fun p => p.1 != h)).find? (fun p => p.1 == f)
      = m.find? (fun p => p.1 == f) := by
  have hhf : (h == f) = false := by
    simp [hne.symm]
  induction m with
  | nil => rfl
  | cons x xs ih =>
    by_cases hx : x.1 = h
    · simp [List.filter_cons, hx, List.find?_cons, hhf, ih]
    · by_cases hxf : x.1 = f
      · simp [List.filter_cons, List.find?_cons, hxf, hx, hne]
      · simp [List.filter_cons, List.find?_cons, hxf, hx, ih]

theorem mokaGet_insert_self (m : List (Nat × CookieStatus)) (h : Nat) (c : CookieStatus) :
    mokaGet (mokaInsert m h c) h = some c := by
  simp [mokaGet, mokaInsert, List.find?_cons]

theorem mokaGet_insert_ne (m : List (Nat × CookieStatus)) (h f : Nat) (c : CookieStatus)
    (hne : f ≠ h) :
    mokaGet (mokaInsert m h c) f = mokaGet m f := by
  have hhf : (h == f) = false := by
    simp [hne.symm]
  simp only [mokaGet, mokaInsert, List.find?_cons, hhf]
  rw [find?_filter_ne m h f hne]

theorem exists_find?_sameTok (l : List CookieStatus) (cm : CookieStatus)
    (h : cm.cookie ∈ toks l) :
    ∃ c0, l.find? (fun c => sameTok c cm) = some c0 ∧ c0.cookie = cm.cookie := by
  rcases List.mem_map.mp h with ⟨x, hx, hcx⟩
  have hsome : (l.find? (fun c => sameTok c cm)).isSome := by
    rw [List.find?_isSome]
    exact ⟨x, hx, (sameTok_iff _ _).mpr hcx⟩
  rcases Option.isSome_iff_exists.mp hsome with ⟨c0, hc0⟩
  have hp := List.find?_some hc0
  exact ⟨c0, hc0, (sameTok_iff _ _).mp hp⟩

/-- The affinity-cache binding: fingerprint `f` is cached to a cookie whose
token is `t`, and that token is still in the `valid` queue. -/
def affinityPinned (f : Nat) (t : String) (s : PoolState) : Prop :=
  (∃ cm, mokaGet s.moka f = some cm ∧ cm.cookie = t) ∧ t ∈ toks s.valid

theorem reset_moka (now : Int) (s : PoolState) :
    (CookieActor.reset now s).moka = s.moka := rfl

theorem reset_mem_toks_valid (now : Int) (s : PoolState) (t : String)
    (h : t ∈ toks s.valid) : t ∈ toks (CookieActor.reset now s).valid := by
  unfold CookieActor.reset
  simp only [toks, List.map_append]
  exact List.mem_append_left _ (by simpa [toks] using h)

theorem affinityPinned_reset (now : Int) (f : Nat) (t : String) (s : PoolState)
    (h : affinityPinned f t s) : affinityPinned f t (CookieActor.reset now s) :=
  ⟨by rw [reset_moka]; exact h.1, reset_mem_toks_valid now s t h.2⟩

theorem mem_toks_rotate (c : CookieStatus) (rest : List CookieStatus) (t : String)
    (h : t ∈ toks (c :: rest)) : t ∈ toks (rest ++ [c]) := by
  simp only [toks, List.map_cons, List.mem_cons, List.map_append, List.map_nil,
    List.mem_append, List.mem_singleton] at h ⊢
  tauto

theorem dispatchCore_hit (s : PoolState) (f : Nat) (t : String)
    (hAF : affinityPinned f t s) :
    ∃ c0, CookieActor.dispatchCore s (some f)
        = (Except.ok c0, { s with moka := mokaInsert s.moka f c0 })
      ∧ c0.cookie = t := by
  rcases hAF with ⟨⟨cm, hm, hcm⟩, htv⟩
  rcases exists_find?_sameTok s.valid cm (by rw [hcm]; exact htv) with ⟨c0, hfind, hc0⟩
  refine ⟨c0, ?_, hc0.trans hcm⟩
  have hbind : (mokaGet s.moka f).bind (fun cached =>
      s.valid.find? (fun c => sameTok c cached)) = some c0 := by
    rw [hm]
    simpa using hfind
  simp [CookieActor.dispatchCore, hbind]

theorem affinityPinned_dispatchCore (s : PoolState) (h : Option Nat) (f : Nat)
    (t : String) (hAF : affinityPinned f t s) :
    affinityPinned f t ((CookieActor.dispatchCore s h).2) := by
  cases h with
  | none =>
    cases hv : s.valid with
    | nil =>
      exfalso
      have := hAF.2
      rw [hv] at this
      simp [toks] at this
    | cons c rest =>
      have hd : CookieActor.dispatchCore s none
          = (Except.ok c, { s with valid := rest ++ [c] }) := by
        simp [CookieActor.dispatchCore, CookieActor.dispatchRR, hv]
      rw [hd]
      exact ⟨hAF.1, mem_toks_rotate c rest t (hv ▸ hAF.2)⟩
  | some g =>
    by_cases hgf : g = f
    · subst hgf
      rcases dispatchCore_hit s g t hAF with ⟨c0, hd, hc0⟩
      rw [hd]
      exact ⟨⟨c0, mokaGet_insert_self _ _ _, hc0⟩, hAF.2⟩
    · have hfg : f ≠ g := fun hh => hgf hh.symm
      cases hm : (mokaGet s.moka g).bind (fun cached =>
          s.valid.find? (fun c => sameTok c cached)) with
      | some c0 =>
        have hd : CookieActor.dispatchCore s (some g)
            = (Except.ok c0, { s with moka := mokaInsert s.moka g c0 }) := by
          simp [CookieActor.dispatchCore, hm]
        rw [hd]
        rcases hAF.1 with ⟨cm, hmm, hcm⟩
        refine ⟨⟨cm, ?_, hcm⟩, hAF.2⟩
        rw [mokaGet_insert_ne _ _ _ _ hfg]
        exact hmm
      | none =>
        cases hv : s.valid with
        | nil =>
          exfalso
          have := hAF.2
          rw [hv] at this
          simp [toks] at this
        | cons c rest =>
          rw [hv] at hm
          have hd : CookieActor.dispatchCore s (some g)
              = (Except.ok c,
                { s with valid := rest ++ [c], moka := mokaInsert s.moka g c }) := by
            simp [CookieActor.dispatchCore, hm, CookieActor.dispatchRR, hv]
          rw [hd]
          rcases hAF.1 with ⟨cm, hmm, hcm⟩
          refine ⟨⟨cm, ?_, hcm⟩, mem_toks_rotate c rest t (hv ▸ hAF.2)⟩
          rw [mokaGet_insert_ne _ _ _ _ hfg]
          exact hmm

theorem dispatchCore_establishes (s : PoolState) (f : Nat) (c : CookieStatus)
    (h1 : (CookieActor.dispatchCore s (some f)).1 = Except.ok c) :
    affinityPinned f c.cookie ((CookieActor.dispatchCore s (some f)).2) := by
  cases hm : (mokaGet s.moka f).bind (fun cached =>
      s.valid.find? (fun cc => sameTok cc cached)) with
  | some c0 =>
    have hd : CookieActor.dispatchCore s (some f)
        = (Except.ok c0, { s with moka := mokaInsert s.moka f c0 }) := by
      simp [CookieActor.dispatchCore, hm]
    rw [hd] at h1 ⊢
    have hc : c0 = c := by simpa using h1
    subst hc
    refine ⟨⟨c0, mokaGet_insert_self _ _ _, rfl⟩, ?_⟩
    rcases Option.bind_eq_some.mp hm with ⟨cached, _, h2⟩
    exact List.mem_map_of_mem _ (List.mem_of_find?_eq_some h2)
  | none =>
    cases hv : s.valid with
    | nil =>
      exfalso
      have hr : (CookieActor.dispatchCore s (some f)).1
          = Except.error ClewdrError.NoCookieAvailable := by
        simp [CookieActor.dispatchCore, hm, CookieActor.dispatchRR, hv]
      rw [hr] at h1
      cases h1
    | cons c0 rest =>
      rw [hv] at hm
      have hd : CookieActor.dispatchCore s (some f)
          = (Except.ok c0,
            { s with valid := rest ++ [c0], moka := mokaInsert s.moka f c0 }) := by
        simp [CookieActor.dispatchCore, hm, CookieActor.dispatchRR, hv]
      rw [hd] at h1 ⊢
      have hc : c0 = c := by simpa using h1
      subst hc
      refine ⟨⟨c0, mokaGet_insert_self _ _ _, rfl⟩, ?_⟩
      show c0.cookie ∈ toks (rest ++ [c0])
      simp [toks]

/-- C8: once `Acquire(f)` has returned credential `c`, the affinity binding
`affinityPinned f c.cookie` is established; it is preserved by any further
Acquire (with any fingerprint or none), and while it holds, every
`Acquire(f)` returns a credential with the same token `c.cookie`. -/
theorem C8_affinity_stability (now : Int) (f : Nat) (s : PoolState) (c : CookieStatus)
    (h1 : (CookieActor.dispatch now (some f) s).1 = Except.ok c) :
    affinityPinned f c.cookie ((CookieActor.dispatch now (some f) s).2)
    ∧ (∀ now2 h2 s2, affinityPinned f c.cookie s2 →
        affinityPinned f c.cookie ((CookieActor.dispatch now2 h2 s2).2))
    ∧ (∀ now2 s2, affinityPinned f c.cookie s2 →
        ∃ c2, (CookieActor.dispatch now2 (some f) s2).1 = Except.ok c2
          ∧ c2.cookie = c.cookie) := by
  refine ⟨?_, ?_, ?_⟩
  · unfold CookieActor.dispatch at h1 ⊢
    exact dispatchCore_establishes _ f c h1
  · intro now2 h2 s2 hAF
    unfold CookieActor.dispatch
    exact affinityPinned_dispatchCore _ h2 f c.cookie
      (affinityPinned_reset now2 f c.cookie s2 hAF)
  · intro now2 s2 hAF
    unfold CookieActor.dispatch
    rcases dispatchCore_hit _ f c.cookie
      (affinityPinned_reset now2 f c.cookie s2 hAF) with ⟨c2, hd, hc2⟩
    exact ⟨c2, by rw [hd], hc2⟩

/-! ## C1: fingerprint-less Acquire is round-robin -/

/-- Results and final state of `n` consecutive fingerprint-less Acquires. -/
def acquireRun (now : Int) (s : PoolState) :
    Nat → List (Except ClewdrError CookieStatus) × PoolState
  | 0 => ([], s)
  | n + 1 =>
    let r := CookieActor.dispatch now none s
    let p := acquireRun now r.2 n
    (r.1 :: p.1, p.2)

/-- No cooling credential is due for promotion at time `now`. -/
def noDue (now : Int) (s : PoolState) : Prop :=
  ∀ c ∈ s.exhausted, (CookieStatus.reset now c).reset_time.isSome

theorem reset_noop (now : Int) (s : PoolState) (hnd : noDue now s) :
    CookieActor.reset now s = s := by
  have h1 : (s.exhausted.filterMap (fun c =>
      let rc := CookieStatus.reset now c
      if rc.reset_time.isNone then some rc else none)) = [] := by
    rw [List.filterMap_eq_nil_iff]
    intro c hc
    have hs := hnd c hc
    cases hr : (CookieStatus.reset now c).reset_time with
    | none =>
      rw [hr] at hs
      cases hs
    | some t => simp [hr]
  have h2 : s.exhausted.filter
      (fun c => (CookieStatus.reset now c).reset_time.isSome) = s.exhausted := by
    rw [List.filter_eq_self]
    intro c hc
    exact hnd c hc
  show ({ s with
    exhausted := s.exhausted.filter
      (fun c => (CookieStatus.reset now c).reset_time.isSome)
    valid := s.valid ++ s.exhausted.filterMap (fun c =>
      let rc := CookieStatus.reset now c
      if rc.reset_time.isNone then some rc else none) } : PoolState) = s
  rw [h1, h2, List.append_nil]

theorem dispatch_none_step (now : Int) (s : PoolState) (hnd : noDue now s)
    (c : CookieStatus) (rest : List CookieStatus) (hv : s.valid = c :: rest) :
    CookieActor.dispatch now none s
      = (Except.ok c, { s with valid := rest ++ [c] }) := by
  unfold CookieActor.dispatch
  rw [reset_noop now s hnd]
  simp [CookieActor.dispatchCore, CookieActor.dispatchRR, hv]

theorem acquireRun_get? (now : Int) :
    ∀ (n : Nat) (s : PoolState) (k : Nat), noDue now s → s.valid ≠ [] → k < n →
    (acquireRun now s n).1.get? k
      = (s.valid.get? (k % s.valid.length)).map Except.ok := by
  intro n
  induction n with
  | zero =>
    intro s k _ _ hk
    exact absurd hk (Nat.not_lt_zero k)
  | succ n ih =>
    intro s k hnd hne hk
    obtain ⟨c, rest, hv⟩ : ∃ c rest, s.valid = c :: rest := by
      cases hvv : s.valid with
      | nil => exact absurd hvv hne
      | cons a b => exact ⟨a, b, rfl⟩
    have hstep := dispatch_none_step now s hnd c rest hv
    have h1 : (acquireRun now s (n + 1)).1
        = Except.ok c :: (acquireRun now { s with valid := rest ++ [c] } n).1 := by
      show ((CookieActor.dispatch now none s).1
        :: (acquireRun now (CookieActor.dispatch now none s).2 n).1) = _
      rw [hstep]
    cases k with
    | zero =>
      rw [h1, hv]
      simp
    | succ k =>
      rw [h1]
      have hnd1 : noDue now ({ s with valid := rest ++ [c] } : PoolState) := hnd
      have hne1 : ({ s with valid := rest ++ [c] } : PoolState).valid ≠ [] := by
        simp
      have hih := ih { s with valid := rest ++ [c] } k hnd1 hne1
        (Nat.lt_of_succ_lt_succ hk)
      show (acquireRun now { s with valid := rest ++ [c] } n).1.get? k = _
      rw [hih]
      have hL : (rest ++ [c]).length = rest.length + 1 := by simp
      show ((rest ++ [c]).get? (k % (rest ++ [c]).length)).map Except.ok
        = ((s.valid.get? ((k + 1) % s.valid.length)).map Except.ok)
      rw [hv, hL]
      have hkL : k % (rest.length + 1) < (c :: rest).length := by
        simpa using Nat.mod_lt k (Nat.succ_pos rest.length)
      have hrot : rest ++ [c] = (c :: rest).rotate 1 := by
        rw [List.rotate_cons_succ, List.rotate_zero]
      have hmod : (k % (rest.length + 1) + 1) % (rest.length + 1)
          = (k + 1) % (rest.length + 1) := (Nat.mod_modEq k (rest.length + 1)).add_right 1
      rw [hrot, List.get?_rotate hkL]
      show ((c :: rest).get? ((k % (rest.length + 1) + 1) % (rest.length + 1))).map
          Except.ok = _
      rw [hmod]
      rfl

/-- C1: when no cooling credential is due for promotion, a fingerprint-less
Acquire pops the front of `valid`, pushes it to the back and returns it;
and across `n` consecutive fingerprint-less Acquires the k-th result is
`valid[k mod |valid|]` — the round-robin permutation of `valid` starting
at its head (with `valid = [A,B,C]`, acquire 0,1,2 return A,B,C and
acquire 3 returns A again). -/
theorem C1_round_robin (now : Int) (s : PoolState) (n k : Nat)
    (hnd : noDue now s) (hne : s.valid ≠ []) (hk : k < n) :
    (∀ c rest, s.valid = c :: rest →
      CookieActor.dispatch now none s
        = (Except.ok c, { s with valid := rest ++ [c] }))
    ∧ (acquireRun now s n).1.get? k
        = (s.valid.get? (k % s.valid.length)).map Except.ok :=
  ⟨fun c rest hv => dispatch_none_step now s hnd c rest hv,
    acquireRun_get? now n s k hnd hne hk⟩

/-! ## C2: reachable-state invariant -/

theorem mem_toks_filter {l : List CookieStatus} {p : CookieStatus → Bool} {t : String}
    (h : t ∈ toks (l.filter p)) : t ∈ toks l := by
  rcases List.mem_map.mp h with ⟨x, hx, hcx⟩
  exact List.mem_map.mpr ⟨x, (List.mem_filter.mp hx).1, hcx⟩

theorem toks_replaceFirst (l : List CookieStatus) (c : CookieStatus) :
    toks (CookieActor.replaceFirst l c) = toks l := by
  induction l with
  | nil => rfl
  | cons x xs ih =>
    by_cases hx : sameTok x c
    · have hcx : x.cookie = c.cookie := (sameTok_iff _ _).mp hx
      simp [CookieActor.replaceFirst, hx, toks, hcx]
    · simp only [CookieActor.replaceFirst, hx, Bool.false_eq_true, if_false]
      simp [toks] at ih ⊢
      exact ih

/-- The reachable-state invariant behind the amended C2: `valid` and
`exhausted` are token-disjoint; both are covered by the persisted
`cookie_array`; and `exhausted` (a `HashSet`) has pairwise-distinct
tokens. -/
def poolInv (s : PoolState) : Prop :=
  (∀ t ∈ toks s.valid, t ∉ toks s.exhausted)
  ∧ (∀ t ∈ toks s.valid, t ∈ toks s.cookie_array)
  ∧ (∀ t ∈ toks s.exhausted, t ∈ toks s.cookie_array)
  ∧ s.exhausted.Pairwise (fun a b => a.cookie ≠ b.cookie)

theorem poolInv_save {s : PoolState} (h : poolInv s) : poolInv (CookieActor.save s) := by
  obtain ⟨hA, _, _, hD⟩ := h
  refine ⟨hA, ?_, ?_, hD⟩
  · intro t ht
    show t ∈ toks (s.valid ++ s.exhausted)
    rw [toks, List.map_append]
    exact List.mem_append_left _ ht
  · intro t ht
    show t ∈ toks (s.valid ++ s.exhausted)
    rw [toks, List.map_append]
    exact List.mem_append_right _ ht

theorem poolInv_ite_save {s : PoolState} (b : Bool) (h : poolInv s) :
    poolInv (if b = true then CookieActor.save s else s) := by
  split
  · exact poolInv_save h
  · exact h

theorem toks_map_applyResets (now : Int) (l : List CookieStatus) :
    toks (l.map (fun c => (CookieActor.applyResets now c).2)) = toks l := by
  simp [toks, List.map_map, Function.comp, applyResets_cookie_eq]

theorem poolInv_refresh {s : PoolState} (now : Int) (h : poolInv s) :
    poolInv (CookieActor.refresh_usage_windows now s).2 := by
  obtain ⟨hA, hB, hC, hD⟩ := h
  have hval : (CookieActor.refresh_usage_windows now s).2.valid
      = s.valid.map (fun c => (CookieActor.applyResets now c).2) := by
    simp [CookieActor.refresh_usage_windows, List.map_map]
  have hex : (CookieActor.refresh_usage_windows now s).2.exhausted
      = s.exhausted.map (fun c => (CookieActor.applyResets now c).2) := by
    simp [CookieActor.refresh_usage_windows, List.map_map]
  refine ⟨?_, ?_, ?_, ?_⟩
  · intro t ht
    rw [hval, toks_map_applyResets] at ht
    rw [hex, toks_map_applyResets]
    exact hA t ht
  · intro t ht
    rw [hval, toks_map_applyResets] at ht
    exact hB t ht
  · intro t ht
    rw [hex, toks_map_applyResets] at ht
    exact hC t ht
  · rw [hex]
    rw [List.pairwise_map]
    refine hD.imp_of_mem ?_
    intro a b _ _ hab
    rw [applyResets_cookie_eq, applyResets_cookie_eq]
    exact hab

theorem toks_cookie_mem_append_left {l1 l2 : List CookieStatus} {t : String}
    (h : t ∈ toks l1) : t ∈ toks (l1 ++ l2) := by
  rw [toks, List.map_append]
  exact List.mem_append_left _ h

theorem toks_cookie_mem_append_right {l1 l2 : List CookieStatus} {t : String}
    (h : t ∈ toks l2) : t ∈ toks (l1 ++ l2) := by
  rw [toks, List.map_append]
  exact List.mem_append_right _ h

theorem mem_toks_append_elim {l1 l2 : List CookieStatus} {t : String}
    (h : t ∈ toks (l1 ++ l2)) : t ∈ toks l1 ∨ t ∈ toks l2 := by
  rw [toks, List.map_append] at h
  exact List.mem_append.mp h

theorem poolInv_accept {s : PoolState} (c : CookieStatus) (h : poolInv s) :
    poolInv (CookieActor.accept s c) := by
  obtain ⟨hA, hB, hC, hD⟩ := h
  unfold CookieActor.accept
  split
  · exact ⟨hA, hB, hC, hD⟩
  · rename_i hcond
    rw [Bool.or_eq_true, not_or] at hcond
    have harr : c.cookie ∉ toks s.cookie_array := by
      intro hmem
      rcases List.mem_map.mp hmem with ⟨x, hx, hcx⟩
      exact hcond.1 (List.any_eq_true.mpr ⟨x, hx, (sameTok_iff _ _).mpr hcx⟩)
    have hex : c.cookie ∉ toks s.exhausted := fun hmem => harr (hC _ hmem)
    refine ⟨?_, ?_, ?_, hD⟩
    · intro t ht
      rcases mem_toks_append_elim ht with h1 | h1
      · exact hA t h1
      · rw [show toks [c] = [c.cookie] from rfl, List.mem_singleton] at h1
        subst h1
        exact hex
    · intro t ht
      exact toks_cookie_mem_append_left ht
    · intro t ht
      exact toks_cookie_mem_append_right ht

theorem poolInv_delete {s : PoolState} (c : CookieStatus) (h : poolInv s) :
    poolInv (CookieActor.delete s c).2 := by
  obtain ⟨hA, hB, hC, hD⟩ := h
  have hA1 : ∀ t ∈ toks (s.valid.filter (fun x => !sameTok x c)),
      t ∉ toks (s.exhausted.filter (fun x => !sameTok x c)) :=
    fun t ht hc => hA t (mem_toks_filter ht) (mem_toks_filter hc)
  have hD1 : (s.exhausted.filter (fun x => !sameTok x c)).Pairwise
      (fun a b => a.cookie ≠ b.cookie) := hD.sublist (List.filter_sublist _)
  unfold CookieActor.delete
  dsimp only
  split
  · refine ⟨hA1, ?_, ?_, hD1⟩
    · intro t ht
      exact toks_cookie_mem_append_left ht
    · intro t ht
      exact toks_cookie_mem_append_right ht
  · refine ⟨hA1, ?_, ?_, hD1⟩
    · intro t ht
      exact hB t (mem_toks_filter ht)
    · intro t ht
      exact hC t (mem_toks_filter ht)

theorem mem_toks_filter_ne (l : List CookieStatus) (cookie : CookieStatus) {t : String}
    (h : t ∈ toks (l.filter (fun x => !sameTok x cookie))) : t ≠ cookie.cookie := by
  rcases List.mem_map.mp h with ⟨x, hx, hcx⟩
  have hf := (List.mem_filter.mp hx).2
  intro heq
  subst hcx
  simp [sameTok, heq] at hf

theorem not_mem_toks_of_any_false (l : List CookieStatus) (c : CookieStatus)
    (h : l.any (fun x => sameTok x c) = false) : c.cookie ∉ toks l := by
  intro hm
  rcases List.mem_map.mp hm with ⟨x, hx, hcx⟩
  have := List.any_eq_false.mp h x hx
  simp [sameTok, hcx] at this

/-- Invariant preservation for the cooling branches of `collect`,
shared by `TooManyRequest` and `Restricted`. -/
theorem poolInv_collect_cooling {s : PoolState} (cookie c1 : CookieStatus)
    (hc1 : c1.cookie = cookie.cookie) (hInv : poolInv s) :
    poolInv (
      let s1 := { s with valid := s.valid.filter (fun c => !sameTok c cookie) }
      let p := insertTok s1.exhausted c1
      if p.1 then CookieActor.save { s1 with exhausted := p.2 } else s1) := by
  obtain ⟨hA, hB, hC, hD⟩ := hInv
  dsimp only
  cases hdup : s.exhausted.any (fun x => sameTok x c1) with
  | true =>
    simp only [insertTok, hdup, if_true, Bool.false_eq_true, if_false]
    refine ⟨?_, ?_, hC, hD⟩
    · exact fun t ht => hA t (mem_toks_filter ht)
    · exact fun t ht => hB t (mem_toks_filter ht)
  | false =>
    have hfreshTok : c1.cookie ∉ toks s.exhausted := not_mem_toks_of_any_false _ _ hdup
    simp only [insertTok, hdup, Bool.false_eq_true, if_false, if_true]
    refine ⟨?_, ?_, ?_, ?_⟩
    · intro t ht
      have htv : t ∈ toks s.valid := mem_toks_filter ht
      have htne : t ≠ cookie.cookie := mem_toks_filter_ne _ _ ht
      intro hcon
      rcases mem_toks_append_elim hcon with h1 | h1
      · exact hA t htv h1
      · rw [show toks [c1] = [c1.cookie] from rfl, List.mem_singleton] at h1
        exact htne (h1.trans hc1)
    · intro t ht
      exact toks_cookie_mem_append_left ht
    · intro t ht
      exact toks_cookie_mem_append_right ht
    · show (s.exhausted ++ [c1]).Pairwise (fun a b => a.cookie ≠ b.cookie)
      rw [List.pairwise_append]
      refine ⟨hD, List.pairwise_singleton _ _, ?_⟩
      intro a ha b hb
      rw [List.mem_singleton] at hb
      subst hb
      intro heq
      exact hfreshTok (heq ▸ List.mem_map_of_mem _ ha)

/-- Invariant preservation for the permanent-invalid tail of `collect`. -/
theorem poolInv_collectInvalid {s : PoolState} (cookie : CookieStatus) (r : Reason)
    (hInv : poolInv s) : poolInv (CookieActor.collectInvalid s cookie r) := by
  obtain ⟨hA, hB, hC, hD⟩ := hInv
  unfold CookieActor.collectInvalid
  dsimp only
  split
  · refine ⟨?_, ?_, ?_, hD⟩
    · exact fun t ht => hA t (mem_toks_filter ht)
    · exact fun t ht => toks_cookie_mem_append_left ht
    · exact fun t ht => toks_cookie_mem_append_right ht
  · refine ⟨?_, ?_, hC, hD⟩
    · exact fun t ht => hA t (mem_toks_filter ht)
    · exact fun t ht => hB t (mem_toks_filter ht)

theorem poolInv_collect {s : PoolState} (cookie : CookieStatus) (r : Option Reason)
    (h : poolInv s) : poolInv (CookieActor.collect s cookie r) := by
  obtain ⟨hA, hB, hC, hD⟩ := h
  cases r with
  | none =>
    show poolInv (if s.valid.any (fun c => sameTok c cookie) then
      CookieActor.save { s with valid := CookieActor.replaceFirst s.valid cookie }
      else s)
    split
    · refine ⟨?_, ?_, ?_, hD⟩
      · intro t ht
        rw [save_valid, toks_replaceFirst] at ht
        rw [save_exhausted]
        exact hA t ht
      · intro t ht
        exact toks_cookie_mem_append_left ht
      · intro t ht
        exact toks_cookie_mem_append_right ht
    · exact ⟨hA, hB, hC, hD⟩
  | some rr =>
    cases rr with
    | NormalPro => exact ⟨hA, hB, hC, hD⟩
    | TooManyRequest i =>
      exact poolInv_collect_cooling cookie
        (CookieStatus.reset_window_usage { cookie with reset_time := some i })
        rfl ⟨hA, hB, hC, hD⟩
    | Restricted i =>
      exact poolInv_collect_cooling cookie
        (CookieStatus.reset_window_usage { cookie with reset_time := some i })
        rfl ⟨hA, hB, hC, hD⟩
    | Free => exact poolInv_collectInvalid cookie Reason.Free ⟨hA, hB, hC, hD⟩
    | Null => exact poolInv_collectInvalid cookie Reason.Null ⟨hA, hB, hC, hD⟩
    | Disabled => exact poolInv_collectInvalid cookie Reason.Disabled ⟨hA, hB, hC, hD⟩

theorem poolInv_reset {s : PoolState} (now : Int) (h : poolInv s) :
    poolInv (CookieActor.reset now s) := by
  obtain ⟨hA, hB, hC, hD⟩ := h
  have hpromElim : ∀ {t : String}, t ∈ toks (s.exhausted.filterMap (fun c =>
      let rc := CookieStatus.reset now c
      if rc.reset_time.isNone then some rc else none)) →
      ∃ x ∈ s.exhausted, x.cookie = t
        ∧ (CookieStatus.reset now x).reset_time.isNone = true := by
    intro t ht
    rcases List.mem_map.mp ht with ⟨y, hy, hyc⟩
    rcases List.mem_filterMap.mp hy with ⟨x, hx, hfx⟩
    dsimp only at hfx
    by_cases hcond : (CookieStatus.reset now x).reset_time.isNone = true
    · rw [if_pos hcond] at hfx
      have hxy : CookieStatus.reset now x = y := Option.some.inj hfx
      refine ⟨x, hx, ?_, hcond⟩
      rw [← hyc, ← hxy, reset_cookie_eq]
    · rw [if_neg hcond] at hfx
      cases hfx
  have hremElim : ∀ {t : String}, t ∈ toks (s.exhausted.filter (fun c =>
      (CookieStatus.reset now c).reset_time.isSome)) →
      ∃ x ∈ s.exhausted, x.cookie = t
        ∧ (CookieStatus.reset now x).reset_time.isSome = true := by
    intro t ht
    rcases List.mem_map.mp ht with ⟨x, hx, hxc⟩
    have hm := List.mem_filter.mp hx
    exact ⟨x, hm.1, hxc, hm.2⟩
  have hdisj : ∀ t ∈ toks (s.exhausted.filterMap (fun c =>
      let rc := CookieStatus.reset now c
      if rc.reset_time.isNone then some rc else none)),
      t ∉ toks (s.exhausted.filter (fun c =>
        (CookieStatus.reset now c).reset_time.isSome)) := by
    intro t h1 h2
    rcases hpromElim h1 with ⟨x, hx, hxc, hxN⟩
    rcases hremElim h2 with ⟨y, hy, hyc, hyS⟩
    have hxy : x ≠ y := by
      rintro rfl
      rw [Option.isNone_iff_eq_none] at hxN
      rw [hxN] at hyS
      cases hyS
    exact hD.forall (fun a b hab => hab.symm) hx hy hxy (hxc.trans hyc.symm)
  refine ⟨?_, ?_, ?_, ?_⟩
  · intro t ht hcon
    rcases mem_toks_append_elim ht with h1 | h1
    · rcases hremElim hcon with ⟨y, hy, hyc, _⟩
      exact hA t h1 (hyc ▸ List.mem_map_of_mem _ hy)
    · exact hdisj t h1 hcon
  · intro t ht
    rcases mem_toks_append_elim ht with h1 | h1
    · exact hB t h1
    · rcases hpromElim h1 with ⟨x, hx, hxc, _⟩
      exact hC t (hxc ▸ List.mem_map_of_mem _ hx)
  · intro t ht
    rcases hremElim ht with ⟨x, hx, hxc, _⟩
    exact hC t (hxc ▸ List.mem_map_of_mem _ hx)
  · exact hD.sublist (List.filter_sublist _)

theorem mem_toks_rotate_rev (c : CookieStatus) (rest : List CookieStatus) (t : String)
    (h : t ∈ toks (rest ++ [c])) : t ∈ toks (c :: rest) := by
  simp only [toks, List.map_cons, List.mem_cons, List.map_append, List.map_nil,
    List.mem_append, List.mem_singleton] at h ⊢
  tauto

theorem poolInv_rotate {s : PoolState} (c : CookieStatus) (rest : List CookieStatus)
    (hv : s.valid = c :: rest) (m : List (Nat × CookieStatus)) (hInv : poolInv s) :
    poolInv { s with valid := rest ++ [c], moka := m } := by
  obtain ⟨hA, hB, hC, hD⟩ := hInv
  rw [hv] at hA hB
  exact ⟨fun t ht => hA t (mem_toks_rotate_rev c rest t ht),
    fun t ht => hB t (mem_toks_rotate_rev c rest t ht), hC, hD⟩

theorem poolInv_dispatchCore {s : PoolState} (h : Option Nat) (hInv : poolInv s) :
    poolInv (CookieActor.dispatchCore s h).2 := by
  cases h with
  | none =>
    cases hv : s.valid with
    | nil =>
      have hd : (CookieActor.dispatchCore s none).2 = s := by
        simp [CookieActor.dispatchCore, CookieActor.dispatchRR, hv]
      rw [hd]
      exact hInv
    | cons c rest =>
      have hd : (CookieActor.dispatchCore s none).2
          = { s with valid := rest ++ [c] } := by
        simp [CookieActor.dispatchCore, CookieActor.dispatchRR, hv]
      rw [hd]
      exact poolInv_rotate c rest hv s.moka hInv
  | some g =>
    cases hm : (mokaGet s.moka g).bind (fun cached =>
        s.valid.find? (fun c => sameTok c cached)) with
    | some c0 =>
      have hd : (CookieActor.dispatchCore s (some g)).2
          = { s with moka := mokaInsert s.moka g c0 } := by
        simp [CookieActor.dispatchCore, hm]
      rw [hd]
      exact hInv
    | none =>
      cases hv : s.valid with
      | nil =>
        rw [hv] at hm
        have hd : (CookieActor.dispatchCore s (some g)).2 = s := by
          simp [CookieActor.dispatchCore, hm, CookieActor.dispatchRR, hv]
        rw [hd]
        exact hInv
      | cons c rest =>
        rw [hv] at hm
        have hd : (CookieActor.dispatchCore s (some g)).2
            = { s with valid := rest ++ [c], moka := mokaInsert s.moka g c } := by
          simp [CookieActor.dispatchCore, hm, CookieActor.dispatchRR, hv]
        rw [hd]
        exact poolInv_rotate c rest hv _ hInv

theorem poolInv_handleMsg {s : PoolState} (now : Int) (msg : CookieActorMessage)
    (h : poolInv s) : poolInv (handleMsg now msg s) := by
  cases msg with
  | Return c r => exact poolInv_collect c r h
  | Submit c => exact poolInv_accept c h
  | CheckReset => exact poolInv_reset now (poolInv_ite_save _ (poolInv_refresh now h))
  | Request hh => exact poolInv_dispatchCore hh (poolInv_reset now h)
  | GetStatus => exact poolInv_ite_save _ (poolInv_refresh now h)
  | Delete c => exact poolInv_delete c h

theorem poolInv_runMsgs (msgs : List (Int × CookieActorMessage)) {s : PoolState}
    (h : poolInv s) : poolInv (runMsgs msgs s) := by
  induction msgs generalizing s with
  | nil => exact h
  | cons m ms ih => exact ih (poolInv_handleMsg m.1 m.2 h)

theorem poolInv_initState (arr : List CookieStatus) (wasted : List UselessCookie)
    (hwf : arr.Pairwise (fun a b => a.cookie ≠ b.cookie)) :
    poolInv (initState arr wasted) := by
  refine ⟨?_, ?_, ?_, ?_⟩
  · intro t ht hcon
    rcases List.mem_map.mp ht with ⟨x, hx, hxc⟩
    rcases List.mem_map.mp hcon with ⟨y, hy, hyc⟩
    have hxf := List.mem_filter.mp hx
    have hyf := List.mem_filter.mp hy
    have hxy : x ≠ y := by
      rintro rfl
      have h1 := hxf.2
      have h2 := hyf.2
      rw [Option.isNone_iff_eq_none] at h1
      rw [h1] at h2
      cases h2
    exact hwf.forall (fun a b hab => hab.symm) hxf.1 hyf.1 hxy (hxc.trans hyc.symm)
  · intro t ht
    exact mem_toks_filter ht
  · intro t ht
    exact mem_toks_filter ht
  · exact hwf.sublist (List.filter_sublist _)

/-- C2 amended: starting from a well-formed rehydrated state (pairwise
distinct tokens in the persisted array) and applying ANY sequence of actor
messages, no token is ever simultaneously in `valid` (active) and
`exhausted` (cooling).  (Disjointness with the `dead` set does NOT hold —
see the counterexample — so the invariant is weakened to the
active/cooling pair.) -/
theorem C2_active_cooling_disjoint (arr : List CookieStatus)
    (wasted : List UselessCookie) (msgs : List (Int × CookieActorMessage))
    (hwf : arr.Pairwise (fun a b => a.cookie ≠ b.cookie)) :
    ∀ t ∈ toks (runMsgs msgs (initState arr wasted)).valid,
      t ∉ toks (runMsgs msgs (initState arr wasted)).exhausted :=
  (poolInv_runMsgs msgs (poolInv_initState arr wasted hwf)).1

/-! ## Concrete witnesses -/

/-- A cookie with an expired, anchored session window, for the C5 witness. -/
def cookieA99 : CookieStatus :=
  { mkCookie "a" with session_has_reset := some true, session_resets_at := some 99 }

theorem C1_round_robin_witness :
    (acquireRun 0 (initState [cookieA, cookieB, cookieC] []) 4).1.get? 3
      = (((initState [cookieA, cookieB, cookieC] []).valid.get?
          (3 % (initState [cookieA, cookieB, cookieC] []).valid.length)).map
          Except.ok) :=
  (C1_round_robin 0 (initState [cookieA, cookieB, cookieC] []) 4 3
    (by unfold noDue; decide) (by decide) (by decide)).2

theorem C2_active_cooling_disjoint_witness :
    "b" ∉ toks (runMsgs
      [(0, CookieActorMessage.Return cookieA (some (Reason.TooManyRequest 5)))]
      (initState [cookieA, cookieB] [])).exhausted :=
  C2_active_cooling_disjoint [cookieA, cookieB] []
    [(0, CookieActorMessage.Return cookieA (some (Reason.TooManyRequest 5)))]
    (by decide) "b" (by decide)

theorem C3_rate_limited_cool_idempotent_witness :
    "a" ∉ toks (CookieActor.collect (initState [cookieA] []) cookieA
      (some (Reason.TooManyRequest 60))).valid :=
  (C3_rate_limited_cool_idempotent (initState [cookieA] []) cookieA 60
    (by decide) (by decide)).1

theorem C4_first_timestamp_retained_witness :
    CookieActor.collect
        (CookieActor.collect (initState [cookieA] []) cookieA
          (some (Reason.TooManyRequest 1)))
        cookieA (some (Reason.TooManyRequest 2))
      = CookieActor.collect (initState [cookieA] []) cookieA
          (some (Reason.TooManyRequest 1)) :=
  (C4_first_timestamp_retained (initState [cookieA] []) cookieA 1 2
    (by decide) (by decide)).1

theorem C5_window_reset_anchors_at_now_witness :
    (CookieActor.applyResets 100 cookieA99).2.session_usage = UsageBreakdown.default
    ∧ (CookieActor.applyResets 100 cookieA99).2.session_resets_at
        = some (100 + CookieActor.SESSION_WINDOW_SECS) :=
  (C5_window_reset_anchors_at_now 100 (initState [cookieA99] []) cookieA99
    (Or.inl (by decide))).2.1 99 rfl rfl (by decide)

theorem C8_affinity_stability_witness :
    affinityPinned 7 cookieA.cookie
      ((CookieActor.dispatch 0 (some 7) (initState [cookieA, cookieB, cookieC] [])).2) :=
  (C8_affinity_stability 0 7 (initState [cookieA, cookieB, cookieC] []) cookieA
    (by rfl)).1

theorem C9_submit_duplicate_rejected_witness :
    countTok (CookieActor.accept (initState [] []) cookieA).valid cookieA.cookie = 1 :=
  (C9_submit_duplicate_rejected (initState [] []) cookieA
    { cookieA with session_usage := ⟨5⟩ } rfl (by decide) (by decide) (by decide)
    (by decide) (by decide)).2.1
